import Mathlib

/-!
# Verification of the PUF PFP generator core

Shallow embedding of the repository's core: the Gemini transform client
(`editImageWithPrompt` in the service module) and the request encoder
(`fileToDataUri` / `handleFileChange` in `App.tsx`), together with proofs
of the specified properties.

Conventions of the embedding:
* JavaScript `undefined`/absent fields are `Option`;
* a thrown JavaScript value is `Thrown` (`err m` for an `Error` instance
  carrying message `m`, `other` for any non-`Error` thrown value);
* the remote Gemini call is a parameter
  `remote : GenRequest → Except Thrown GenerateContentResponse`:
  `Except.error e` models the awaited promise rejecting with `e`,
  `Except.ok r` models it resolving with response `r`;
* byte strings are `List Nat` with every element `< 256`.
-/

/-- Inline data of a response part (`Blob` in the SDK): both fields are
optional in the wire shape. -/
structure InlineData where
  data : Option String
  mimeType : Option String
deriving DecidableEq

/-- One content part of a model response: it may carry inline image data
and/or text (`if (part.inlineData)` only looks at the first field). -/
structure ResponsePart where
  inlineData : Option InlineData
  text : Option String
deriving DecidableEq

/-- Content of a response candidate; the parts list may be absent. -/
structure Content where
  parts : Option (List ResponsePart)
deriving DecidableEq

/-- One response candidate; its content may be absent. -/
structure Candidate where
  content : Option Content
deriving DecidableEq

/-- The response of `ai.models.generateContent`: an optional candidate list. -/
structure GenerateContentResponse where
  candidates : Option (List Candidate)
deriving DecidableEq

/-- A thrown JavaScript value: an `Error` with a message, or anything else. -/
inductive Thrown where
  | err (message : String)
  | other
deriving DecidableEq

/-- Evaluation of `error instanceof Error ? error.message : "An unknown error occurred."`. -/
def thrownMessage : Thrown → String
  | Thrown.err m => m
  | Thrown.other => "An unknown error occurred."

/-- Output modality requested from the model. -/
inductive Modality where
  | IMAGE
  | TEXT
deriving DecidableEq

/-- One part of the request body: inline image data, or text. -/
inductive RequestPart where
  | inlineData (data : String) (mimeType : String)
  | text (t : String)
deriving DecidableEq

/-- The request handed to `ai.models.generateContent`: model identifier,
ordered parts of the single content, and the response-modality config. -/
structure GenRequest where
  model : String
  parts : List RequestPart
  responseModalities : List Modality
deriving DecidableEq

/-- The request built by `editImageWithPrompt` (lines 16–33 of the service):
the inline-image part, then the text part, sent to the hardcoded model with
image-modality output requested. -/
def buildRequest (base64ImageData mimeType prompt : String) : GenRequest :=
  { model := "gemini-2.5-flash-image"
    parts := [RequestPart.inlineData base64ImageData mimeType,
              RequestPart.text prompt]
    responseModalities := [Modality.IMAGE] }

/-- Evaluation of `response.candidates?.[0]?.content?.parts ?? []`: optional chaining
through the response, each absent level collapsing to the empty list. -/
def partsOf (r : GenerateContentResponse) : List ResponsePart :=
  match r.candidates with
  | none => []
  | some cs =>
    match cs.head? with
    | none => []
    | some c =>
      match c.content with
      | none => []
      | some content =>
        match content.parts with
        | none => []
        | some ps => ps

/-- The `for (const part of …) if (part.inlineData) return part.inlineData.data`
loop: the data field of the first part whose `inlineData` is present (the
outer `Option` is "a part was found", the inner one is the `data` field
itself, which the code does not check). -/
def firstInlineData : List ResponsePart → Option (Option String)
  | [] => none
  | p :: ps =>
    match p.inlineData with
    | some idata => some idata.data
    | none => firstInlineData ps

/-- Result of one `editImageWithPrompt` invocation as the caller sees it:
the promise resolves with the (possibly `undefined`) data string, or
rejects with an `Error` whose message is recorded. -/
inductive EditOutcome where
  | success (data : Option String)
  | failure (message : String)
deriving DecidableEq

/-- Settling of the awaited remote call (lines 36–48 of the service): scan
the parts for inline data; otherwise throw "No image data found…"; every
throw — the remote rejection included — is caught by the single `catch`
and re-wrapped with the fixed message prefix. -/
def settle (outcome : Except Thrown GenerateContentResponse) : EditOutcome :=
  match outcome with
  | Except.error e =>
    EditOutcome.failure ("Failed to generate image: " ++ thrownMessage e)
  | Except.ok response =>
    match firstInlineData (partsOf response) with
    | some d => EditOutcome.success d
    | none =>
      EditOutcome.failure
        ("Failed to generate image: " ++ "No image data found in the API response.")

/-- Function `editImageWithPrompt` of the service module: build the two-part
request, await the remote call, settle. -/
def editImageWithPrompt (base64ImageData mimeType prompt : String)
    (remote : GenRequest → Except Thrown GenerateContentResponse) : EditOutcome :=
  settle (remote (buildRequest base64ImageData mimeType prompt))

/-- What the service module exports once its top level has run. -/
structure GeminiServiceModule where
  editImage : String → String → String →
    (GenRequest → Except Thrown GenerateContentResponse) → EditOutcome

/-- Top level of the service module (lines 3–7): `process.env.API_KEY` is
an optional environment string; `!process.env.API_KEY` is true when the
variable is absent or empty (JS falsiness), in which case the module throws
at load time and exports nothing. -/
def loadGeminiService (apiKey : Option String) :
    Except Thrown GeminiServiceModule :=
  match apiKey with
  | none => Except.error (Thrown.err "API_KEY environment variable not set")
  | some k =>
    if k = "" then Except.error (Thrown.err "API_KEY environment variable not set")
    else Except.ok { editImage := editImageWithPrompt }

/-!
## The request encoder (`App.tsx`)

`fileToDataUri` wraps the browser's `FileReader.readAsDataURL`, which
serializes a file as `data:<type>;base64,<base64 of bytes>`; the base64
codec itself is a platform primitive not present in the repository, so it
is modelled from the spec's description ("binary contents represented as
text-safe (base64) data"): the standard RFC 4648 encoding below.
-/

/-- The base64 alphabet, index 0–63. -/
def b64Chars : List Char :=
  "ABCDEFGHIJKLMNOPQRSTUVWXYZabcdefghijklmnopqrstuvwxyz0123456789+/".toList

/-- Character of a 6-bit value. -/
def sextetChar (n : Nat) : Char := b64Chars.getD n '='

/-- 6-bit value of an alphabet character (64 when not in the alphabet). -/
def charSextet (c : Char) : Nat := b64Chars.indexOf c

/-- Modelled from the spec: standard base64 encoding of a byte list, three
bytes to four characters, with `=` padding (this is what
`FileReader.readAsDataURL` produces after the header; the codec is not in
the repository source). -/
def b64Encode : List Nat → List Char
  | b0 :: b1 :: b2 :: rest =>
    sextetChar (b0 / 4) :: sextetChar (b0 % 4 * 16 + b1 / 16) ::
      sextetChar (b1 % 16 * 4 + b2 / 64) :: sextetChar (b2 % 64) :: b64Encode rest
  | [b0, b1] =>
    [sextetChar (b0 / 4), sextetChar (b0 % 4 * 16 + b1 / 16),
      sextetChar (b1 % 16 * 4), '=']
  | [b0] =>
    [sextetChar (b0 / 4), sextetChar (b0 % 4 * 16), '=', '=']
  | [] => []

/-- Modelled from the spec: standard base64 decoding, the inverse reading
of four characters to three bytes, honouring `=` padding. -/
def b64Decode : List Nat → List Nat
  | [s0, s1] => [s0 * 4 + s1 / 16]
  | [s0, s1, s2] => [s0 * 4 + s1 / 16, s1 % 16 * 16 + s2 / 4]
  | s0 :: s1 :: s2 :: s3 :: rest =>
    (s0 * 4 + s1 / 16) :: (s1 % 16 * 16 + s2 / 4) :: (s2 % 4 * 64 + s3) ::
      b64Decode rest
  | _ => []

/-- Decode a base64 character list: drop the padding, map characters to
their 6-bit values, reassemble bytes. -/
def b64DecodeChars (s : List Char) : List Nat :=
  b64Decode ((s.filter (fun c => c ≠ '=')).map charSextet)

/-- A browser `File`: its bytes and its declared media type. -/
structure JsFile where
  bytes : List Nat
  type : List Char

/-- Function `fileToDataUri` (`App.tsx` lines 6–15): resolves with
`reader.result`, the data URL `data:<type>;base64,<payload>`. -/
def fileToDataUri (f : JsFile) : List Char :=
  "data:".toList ++ f.type ++ ";base64,".toList ++ b64Encode f.bytes

/-- JavaScript `String.prototype.split(',')`. -/
def jsSplitComma : List Char → List (List Char)
  | [] => [[]]
  | c :: rest =>
    if c = ',' then [] :: jsSplitComma rest
    else
      match jsSplitComma rest with
      | [] => [[c]]
      | g :: gs => (c :: g) :: gs

/-- The `ImageFile` handed to `onImageUpload`: the original file plus the
extracted base64 payload (`dataUri.split(',')[1]`, `undefined` when the
URI has no comma). -/
structure ImageFile where
  file : JsFile
  base64 : Option (List Char)

/-- Function `handleFileChange` (`App.tsx` lines 29–36) on a selected file: await
the data URI, split on the comma, keep index 1 as the encoded payload. -/
def handleFileChange (f : JsFile) : ImageFile :=
  { file := f, base64 := (jsSplitComma (fileToDataUri f)).get? 1 }

/-- Function `handleGenerate` (`App.tsx` line 104): the displayed result URI labels
the returned payload `image/png` unconditionally. -/
def editedImageUri (resultBase64 : String) : String :=
  "data:image/png;base64," ++ resultBase64

/-- The 6-bit values of the non-padding characters of `b64Encode` (proof
intermediate: encode, stripped of its character coating). -/
def sextets : List Nat → List Nat
  | b0 :: b1 :: b2 :: rest =>
    b0 / 4 :: (b0 % 4 * 16 + b1 / 16) :: (b1 % 16 * 4 + b2 / 64) :: b2 % 64 ::
      sextets rest
  | [b0, b1] => [b0 / 4, b0 % 4 * 16 + b1 / 16, b1 % 16 * 4]
  | [b0] => [b0 / 4, b0 % 4 * 16]
  | [] => []

/-- A structurally valid encoded payload in the sense of the spec's
glossary: the base64 encoding of some byte string. -/
def validBase64 (s : String) : Prop :=
  ∃ bytes : List Nat, (∀ b ∈ bytes, b < 256) ∧ b64Encode bytes = s.toList

/-- A response part carrying inline image data. -/
def imagePart (d m : Option String) : ResponsePart :=
  { inlineData := some { data := d, mimeType := m }, text := none }

/-- A response part carrying only text. -/
def textPart (t : String) : ResponsePart :=
  { inlineData := none, text := some t }

/-- A response with exactly one candidate holding the given parts. -/
def singleCandidate (ps : List ResponsePart) : GenerateContentResponse :=
  { candidates := some [{ content := some { parts := some ps } }] }

/-- A response whose only part carries an `inlineData` object with no
`data` field at all. -/
def respAbsentData : GenerateContentResponse :=
  singleCandidate [imagePart none none]

/-- A response whose only part carries an `inlineData` object whose `data`
field is the empty string. -/
def respEmptyData : GenerateContentResponse :=
  singleCandidate [imagePart (some "") (some "image/png")]

/-- The spec's example response: one candidate whose parts are a text part
`"ok"` followed by an image part with data `"AAAA"`. -/
def respTextThenImage : GenerateContentResponse :=
  singleCandidate [textPart "ok", imagePart (some "AAAA") (some "image/png")]

/-- A response with an empty `candidates` array. -/
def respNoCandidates : GenerateContentResponse := { candidates := some [] }

/-- Rewrite the `mimeType` field of a part's inline data (used to state
that the client discards it). -/
def setPartMime (m : Option String) (q : ResponsePart) : ResponsePart :=
  { q with inlineData := q.inlineData.map fun i => { i with mimeType := m } }

/-- Rewrite every inline-data `mimeType` of a response. -/
def setRespMime (m : Option String) (r : GenerateContentResponse) :
    GenerateContentResponse :=
  { candidates := r.candidates.map (List.map fun c =>
      { content := c.content.map fun ct =>
          { parts := ct.parts.map (List.map (setPartMime m)) } }) }

/-!
## Interleaving model for overlapping invocations

The service module's only module-level binding is the constant `ai`
client; `editImageWithPrompt` touches no other module state, so one
in-flight invocation is a task that reads nothing but its own arguments.
A task steps `idle → requesting → done`; a schedule interleaves the steps
of two tasks arbitrarily.
-/

/-- The arguments of one `editImageWithPrompt` invocation, its remote
included. -/
structure TransformInput where
  base64ImageData : String
  mimeType : String
  prompt : String
  remote : GenRequest → Except Thrown GenerateContentResponse

/-- The result of one invocation run in isolation. -/
def runTransform (i : TransformInput) : EditOutcome :=
  editImageWithPrompt i.base64ImageData i.mimeType i.prompt i.remote

/-- Progress of one in-flight invocation: not yet started, awaiting the
remote call it issued, or settled. -/
inductive TaskState where
  | idle
  | requesting (req : GenRequest)
  | done (r : EditOutcome)
deriving DecidableEq

/-- One step of an invocation: build and issue the request, then settle
the awaited outcome; a settled task stays settled. The step reads only
the task's own input and state. -/
def stepTask (i : TransformInput) : TaskState → TaskState
  | TaskState.idle =>
    TaskState.requesting (buildRequest i.base64ImageData i.mimeType i.prompt)
  | TaskState.requesting req => TaskState.done (settle (i.remote req))
  | TaskState.done r => TaskState.done r

/-- Iterate `n` steps of one invocation. -/
def stepN (i : TransformInput) : Nat → TaskState → TaskState
  | 0, t => t
  | n + 1, t => stepN i n (stepTask i t)

/-- Joint state of two overlapping invocations. -/
structure SystemState where
  t1 : TaskState
  t2 : TaskState
deriving DecidableEq

/-- Run a schedule: `true` steps the first invocation, `false` the
second. -/
def runSchedule (i1 i2 : TransformInput) :
    List Bool → SystemState → SystemState
  | [], s => s
  | true :: sch, s => runSchedule i1 i2 sch { s with t1 := stepTask i1 s.t1 }
  | false :: sch, s => runSchedule i1 i2 sch { s with t2 := stepTask i2 s.t2 }

/-!
## Proofs
-/

theorem charSextet_sextetChar {n : Nat} (h : n < 64) : charSextet (sextetChar n) = n := by
  have key : ∀ m : Fin 64, charSextet (sextetChar m.val) = m.val := by decide
  exact key ⟨n, h⟩

theorem sextetChar_ne_pad {n : Nat} (h : n < 64) : sextetChar n ≠ '=' := by
  have key : ∀ m : Fin 64, sextetChar m.val ≠ '=' := by decide
  exact key ⟨n, h⟩

theorem sextetChar_ne_comma {n : Nat} (h : n < 64) : sextetChar n ≠ ',' := by
  have key : ∀ m : Fin 64, sextetChar m.val ≠ ',' := by decide
  exact key ⟨n, h⟩

theorem encode_filter_map (bytes : List Nat) (h : ∀ b ∈ bytes, b < 256) :
    ((b64Encode bytes).filter (fun c => c ≠ '=')).map charSextet = sextets bytes := by
  induction bytes using b64Encode.induct with
  | case1 b0 b1 b2 rest ih =>
    have hb0 : b0 < 256 := h b0 (by simp)
    have hb1 : b1 < 256 := h b1 (by simp)
    have hb2 : b2 < 256 := h b2 (by simp)
    have h1 : b0 / 4 < 64 := by omega
    have h2 : b0 % 4 * 16 + b1 / 16 < 64 := by omega
    have h3 : b1 % 16 * 4 + b2 / 64 < 64 := by omega
    have h4 : b2 % 64 < 64 := by omega
    have hrest : ∀ b ∈ rest, b < 256 := fun b hb => h b (by simp [hb])
    simp [b64Encode, sextets, sextetChar_ne_pad, h1, h2, h3, h4,
      charSextet_sextetChar]
    simpa using ih hrest
  | case2 b0 b1 =>
    have hb0 : b0 < 256 := h b0 (by simp)
    have hb1 : b1 < 256 := h b1 (by simp)
    have h1 : b0 / 4 < 64 := by omega
    have h2 : b0 % 4 * 16 + b1 / 16 < 64 := by omega
    have h3 : b1 % 16 * 4 < 64 := by omega
    simp [b64Encode, sextets, sextetChar_ne_pad, h1, h2, h3, charSextet_sextetChar]
  | case3 b0 =>
    have hb0 : b0 < 256 := h b0 (by simp)
    have h1 : b0 / 4 < 64 := by omega
    have h2 : b0 % 4 * 16 < 64 := by omega
    simp [b64Encode, sextets, sextetChar_ne_pad, h1, h2, charSextet_sextetChar]
  | case4 => rfl

theorem decode_sextets (bytes : List Nat) (h : ∀ b ∈ bytes, b < 256) :
    b64Decode (sextets bytes) = bytes := by
  induction bytes using b64Encode.induct with
  | case1 b0 b1 b2 rest ih =>
    have hb0 : b0 < 256 := h b0 (by simp)
    have hb1 : b1 < 256 := h b1 (by simp)
    have hb2 : b2 < 256 := h b2 (by simp)
    have hrest : ∀ b ∈ rest, b < 256 := fun b hb => h b (by simp [hb])
    simp only [sextets]
    rw [b64Decode]
    · rw [ih hrest]
      congr 1 <;> [skip; congr 1] <;> [omega; omega; skip]
      congr 1
      omega
  | case2 b0 b1 =>
    have hb0 : b0 < 256 := h b0 (by simp)
    have hb1 : b1 < 256 := h b1 (by simp)
    simp only [sextets, b64Decode]
    congr 1 <;> [omega; (congr 1; omega)]
  | case3 b0 =>
    have hb0 : b0 < 256 := h b0 (by simp)
    simp only [sextets, b64Decode]
    congr 1
    omega
  | case4 => rfl

theorem b64_roundTrip (bytes : List Nat) (h : ∀ b ∈ bytes, b < 256) :
    b64DecodeChars (b64Encode bytes) = bytes := by
  unfold b64DecodeChars
  rw [encode_filter_map bytes h, decode_sextets bytes h]

theorem b64Encode_no_comma (bytes : List Nat) (h : ∀ b ∈ bytes, b < 256) :
    ',' ∉ b64Encode bytes := by
  induction bytes using b64Encode.induct with
  | case1 b0 b1 b2 rest ih =>
    have hb0 : b0 < 256 := h b0 (by simp)
    have hb1 : b1 < 256 := h b1 (by simp)
    have hb2 : b2 < 256 := h b2 (by simp)
    have hrest : ∀ b ∈ rest, b < 256 := fun b hb => h b (by simp [hb])
    have h1 : b0 / 4 < 64 := by omega
    have h2 : b0 % 4 * 16 + b1 / 16 < 64 := by omega
    have h3 : b1 % 16 * 4 + b2 / 64 < 64 := by omega
    have h4 : b2 % 64 < 64 := by omega
    simp [b64Encode, ih hrest]
    exact ⟨(sextetChar_ne_comma h1).symm, (sextetChar_ne_comma h2).symm,
      (sextetChar_ne_comma h3).symm, (sextetChar_ne_comma h4).symm⟩
  | case2 b0 b1 =>
    have hb0 : b0 < 256 := h b0 (by simp)
    have hb1 : b1 < 256 := h b1 (by simp)
    have h1 : b0 / 4 < 64 := by omega
    have h2 : b0 % 4 * 16 + b1 / 16 < 64 := by omega
    have h3 : b1 % 16 * 4 < 64 := by omega
    simp [b64Encode]
    exact ⟨(sextetChar_ne_comma h1).symm, (sextetChar_ne_comma h2).symm,
      (sextetChar_ne_comma h3).symm⟩
  | case3 b0 =>
    have hb0 : b0 < 256 := h b0 (by simp)
    have h1 : b0 / 4 < 64 := by omega
    have h2 : b0 % 4 * 16 < 64 := by omega
    simp [b64Encode]
    exact ⟨(sextetChar_ne_comma h1).symm, (sextetChar_ne_comma h2).symm⟩
  | case4 => simp [b64Encode]

theorem jsSplitComma_no_comma {s : List Char} (h : ',' ∉ s) : jsSplitComma s = [s] := by
  induction s with
  | nil => rfl
  | cons c rest ih =>
    have hc : c ≠ ',' := fun e => h (by simp [e])
    have hr : ',' ∉ rest := fun e => h (by simp [e])
    simp [jsSplitComma, hc, ih hr]

theorem jsSplitComma_append {a : List Char} (b : List Char) (ha : ',' ∉ a) :
    jsSplitComma (a ++ ',' :: b) = a :: jsSplitComma b := by
  induction a with
  | nil => simp [jsSplitComma]
  | cons c rest ih =>
    have hc : c ≠ ',' := fun e => ha (by simp [e])
    have hr : ',' ∉ rest := fun e => ha (by simp [e])
    simp [jsSplitComma, hc, ih hr]

/-- C6: for every valid pair of image bytes and mimeType, the payload that
`handleFileChange` extracts from `fileToDataUri`'s data URL is exactly the
base64 encoding of the file's bytes, decoding that payload reproduces the
original bytes, and the stored file's declared media type is untouched. -/
theorem encode_roundTrip (f : JsFile) (hb : ∀ b ∈ f.bytes, b < 256)
    (hm : ',' ∉ f.type) :
    (handleFileChange f).base64 = some (b64Encode f.bytes) ∧
    b64DecodeChars (b64Encode f.bytes) = f.bytes ∧
    (handleFileChange f).file.type = f.type := by
  refine ⟨?_, b64_roundTrip f.bytes hb, rfl⟩
  have shape : fileToDataUri f =
      ("data:".toList ++ f.type ++ ";base64".toList) ++ ',' :: b64Encode f.bytes := by
    simp [fileToDataUri]
  have hhead : ',' ∉ "data:".toList ++ f.type ++ ";base64".toList := by
    intro hmem
    rcases List.mem_append.mp hmem with hmem | hmem
    · rcases List.mem_append.mp hmem with hmem | hmem
      · simp at hmem
      · exact hm hmem
    · simp at hmem
  show (jsSplitComma (fileToDataUri f)).get? 1 = some (b64Encode f.bytes)
  rw [shape, jsSplitComma_append _ hhead,
    jsSplitComma_no_comma (b64Encode_no_comma f.bytes hb)]
  rfl

/-- Witness for C6 at a concrete three-byte PNG-typed file. -/
theorem encode_roundTrip_witness :
    (∀ b ∈ [77, 97, 110], b < 256) ∧ ',' ∉ "image/png".toList ∧
    ((handleFileChange ⟨[77, 97, 110], "image/png".toList⟩).base64 =
        some (b64Encode [77, 97, 110]) ∧
      b64DecodeChars (b64Encode [77, 97, 110]) = [77, 97, 110] ∧
      (handleFileChange ⟨[77, 97, 110], "image/png".toList⟩).file.type =
        "image/png".toList) :=
  ⟨by decide, by decide,
    encode_roundTrip ⟨[77, 97, 110], "image/png".toList⟩ (by decide) (by decide)⟩

theorem firstInlineData_append (pre : List ResponsePart) (q : ResponsePart)
    (rest : List ResponsePart) (idata : InlineData)
    (hpre : ∀ x ∈ pre, x.inlineData = none) (hq : q.inlineData = some idata) :
    firstInlineData (pre ++ q :: rest) = some idata.data := by
  induction pre with
  | nil => simp [firstInlineData, hq]
  | cons x xs ih =>
    have hx : x.inlineData = none := hpre x (by simp)
    have hxs : ∀ y ∈ xs, y.inlineData = none := fun y hy => hpre y (by simp [hy])
    simp [firstInlineData, hx, ih hxs]

theorem firstInlineData_none (ps : List ResponsePart)
    (h : ∀ x ∈ ps, x.inlineData = none) : firstInlineData ps = none := by
  induction ps with
  | nil => rfl
  | cons x xs ih =>
    have hx : x.inlineData = none := h x (by simp)
    have hxs : ∀ y ∈ xs, y.inlineData = none := fun y hy => h y (by simp [hy])
    simp [firstInlineData, hx, ih hxs]

/-- C1: when the remote resolves with a response whose first candidate's
parts are some image-free parts, then a part carrying inline data, then
anything, `editImageWithPrompt` succeeds with exactly that first image
part's payload; the surrounding parts play no role. -/
theorem editImage_first_image_wins (b mt pr : String)
    (remote : GenRequest → Except Thrown GenerateContentResponse)
    (resp : GenerateContentResponse) (pre : List ResponsePart)
    (q : ResponsePart) (rest : List ResponsePart) (idata : InlineData)
    (hremote : remote (buildRequest b mt pr) = Except.ok resp)
    (hparts : partsOf resp = pre ++ q :: rest)
    (hpre : ∀ x ∈ pre, x.inlineData = none)
    (hq : q.inlineData = some idata) :
    editImageWithPrompt b mt pr remote = EditOutcome.success idata.data := by
  simp only [editImageWithPrompt, hremote, settle]
  rw [hparts, firstInlineData_append pre q rest idata hpre hq]

/-- Witness for C1: the spec's example — a text part `"ok"` followed by an
image part `"AAAA"` — yields Success `"AAAA"`. -/
theorem editImage_first_image_wins_witness :
    editImageWithPrompt "img" "image/png" "edit"
        (fun _ => Except.ok respTextThenImage) =
      EditOutcome.success (some "AAAA") :=
  editImage_first_image_wins "img" "image/png" "edit"
    (fun _ => Except.ok respTextThenImage) respTextThenImage
    [textPart "ok"] (imagePart (some "AAAA") (some "image/png")) [] _
    rfl rfl (by decide) rfl

/-- C2: when the remote resolves but no part of
`candidates?.[0]?.content?.parts ?? []` carries inline data — in
particular when candidates, content or parts are missing or empty —
`editImageWithPrompt` returns the wrapped no-image-data failure rather
than crashing or succeeding. -/
theorem editImage_no_image_failure (b mt pr : String)
    (remote : GenRequest → Except Thrown GenerateContentResponse)
    (resp : GenerateContentResponse)
    (hremote : remote (buildRequest b mt pr) = Except.ok resp)
    (hnone : ∀ x ∈ partsOf resp, x.inlineData = none) :
    editImageWithPrompt b mt pr remote =
      EditOutcome.failure
        "Failed to generate image: No image data found in the API response." := by
  simp only [editImageWithPrompt, hremote, settle]
  rw [firstInlineData_none _ hnone]
  rfl

/-- Witness for C2: a response with an empty candidates array fails with
the no-image-data message. -/
theorem editImage_no_image_failure_witness :
    editImageWithPrompt "img" "image/png" "edit"
        (fun _ => Except.ok respNoCandidates) =
      EditOutcome.failure
        "Failed to generate image: No image data found in the API response." :=
  editImage_no_image_failure "img" "image/png" "edit"
    (fun _ => Except.ok respNoCandidates) respNoCandidates rfl (by decide)

/-- C3: a remote rejection with thrown value `e` is re-wrapped into a
failure whose message is the fixed prefix followed by `e`'s message when
`e` is an `Error` (and by the generic text otherwise, per
`thrownMessage`); moreover every failure `editImageWithPrompt` ever
returns carries the fixed prefix. -/
theorem editImage_error_wrapped (b mt pr : String)
    (remote : GenRequest → Except Thrown GenerateContentResponse) :
    (∀ e, remote (buildRequest b mt pr) = Except.error e →
      editImageWithPrompt b mt pr remote =
        EditOutcome.failure ("Failed to generate image: " ++ thrownMessage e)) ∧
    (∀ m, editImageWithPrompt b mt pr remote = EditOutcome.failure m →
      ∃ s, m = "Failed to generate image: " ++ s) ∧
    thrownMessage Thrown.other = "An unknown error occurred." := by
  refine ⟨?_, ?_, rfl⟩
  · intro e he
    simp only [editImageWithPrompt, he, settle]
  · intro m hm
    rw [editImageWithPrompt] at hm
    cases hrem : remote (buildRequest b mt pr) with
    | error e =>
      rw [hrem] at hm
      simp only [settle] at hm
      injection hm with h
      exact ⟨thrownMessage e, h.symm⟩
    | ok resp =>
      rw [hrem] at hm
      simp only [settle] at hm
      cases hf : firstInlineData (partsOf resp) with
      | some d => rw [hf] at hm; simp at hm
      | none =>
        rw [hf] at hm
        injection hm with h
        exact ⟨"No image data found in the API response.", h.symm⟩

/-- Witness for C3 at a transport fault carrying a message. -/
theorem editImage_error_wrapped_witness :
    editImageWithPrompt "img" "image/png" "edit"
        (fun _ => Except.error (Thrown.err "connection reset")) =
      EditOutcome.failure
        ("Failed to generate image: " ++ thrownMessage (Thrown.err "connection reset")) :=
  (editImage_error_wrapped "img" "image/png" "edit"
    (fun _ => Except.error (Thrown.err "connection reset"))).1
    (Thrown.err "connection reset") rfl

theorem failMessage_ne_empty (t : String) :
    ("Failed to generate image: " ++ t) ≠ "" := by
  intro h
  have hlen := congrArg String.length h
  simp [String.length_append] at hlen
  exact absurd hlen.1 (by decide)

/-- C4: the request `editImageWithPrompt` sends consists of exactly the
inline-image part then the text part, addressed to the hardcoded
`gemini-2.5-flash-image` model with image-modality output requested; the
outcome depends on the remote only through its answer at that one
request. -/
theorem buildRequest_shape (b mt pr : String) :
    (buildRequest b mt pr).parts =
      [RequestPart.inlineData b mt, RequestPart.text pr] ∧
    (buildRequest b mt pr).model = "gemini-2.5-flash-image" ∧
    (buildRequest b mt pr).responseModalities = [Modality.IMAGE] ∧
    ∀ remote remote' : GenRequest → Except Thrown GenerateContentResponse,
      remote (buildRequest b mt pr) = remote' (buildRequest b mt pr) →
      editImageWithPrompt b mt pr remote = editImageWithPrompt b mt pr remote' := by
  refine ⟨rfl, rfl, rfl, fun remote remote' h => ?_⟩
  simp [editImageWithPrompt, h]

/-- Witness for C4: two remotes agreeing at the built request (one of
them answering only the hardcoded model) are indistinguishable. -/
theorem buildRequest_shape_witness :
    editImageWithPrompt "img" "image/png" "edit"
        (fun _ => Except.ok respTextThenImage) =
      editImageWithPrompt "img" "image/png" "edit"
        (fun q => if q.model = "gemini-2.5-flash-image"
          then Except.ok respTextThenImage else Except.error Thrown.other) :=
  (buildRequest_shape "img" "image/png" "edit").2.2.2 _ _ rfl

/-- C5 (amended): `editImageWithPrompt` always yields exactly a Success
carrying the extracted data field as received, or a Failure with a
non-empty message; no outcome escapes unwrapped. -/
theorem editImage_total (b mt pr : String)
    (remote : GenRequest → Except Thrown GenerateContentResponse) :
    (∃ d, editImageWithPrompt b mt pr remote = EditOutcome.success d) ∨
    (∃ m, editImageWithPrompt b mt pr remote = EditOutcome.failure m ∧ m ≠ "") := by
  cases hrem : remote (buildRequest b mt pr) with
  | error e =>
    exact Or.inr ⟨"Failed to generate image: " ++ thrownMessage e,
      by simp [editImageWithPrompt, hrem, settle], failMessage_ne_empty _⟩
  | ok resp =>
    cases hf : firstInlineData (partsOf resp) with
    | some d =>
      exact Or.inl ⟨d, by simp [editImageWithPrompt, hrem, settle, hf]⟩
    | none =>
      exact Or.inr ⟨"Failed to generate image: " ++
          "No image data found in the API response.",
        by simp [editImageWithPrompt, hrem, settle, hf], failMessage_ne_empty _⟩

/-- Counterexample to C5 as stated: on a response whose only part has an
`inlineData` object with no `data` field, the result is a Success carrying
no payload at all — neither a Success with a structurally valid encoded
payload nor any Failure. -/
theorem editImage_valid_success_cex :
    ¬ ((∃ d, editImageWithPrompt "img" "image/png" "edit"
          (fun _ => Except.ok respAbsentData) =
            EditOutcome.success (some d) ∧ validBase64 d) ∨
      (∃ m, editImageWithPrompt "img" "image/png" "edit"
          (fun _ => Except.ok respAbsentData) = EditOutcome.failure m)) := by
  have hres : editImageWithPrompt "img" "image/png" "edit"
      (fun _ => Except.ok respAbsentData) = EditOutcome.success none := rfl
  rintro (⟨d, hd, -⟩ | ⟨m, hm⟩)
  · rw [hres] at hd
    injection hd with h
    cases h
  · rw [hres] at hm
    cases hm

/-- C7: with the API_KEY environment variable absent, the service module's
top level throws, so the module never loads and `editImageWithPrompt` is
unreachable (the exports exist only behind `Except.ok`). -/
theorem apiKey_missing_fatal :
    loadGeminiService none =
      Except.error (Thrown.err "API_KEY environment variable not set") ∧
    (loadGeminiService none).toOption = none :=
  ⟨rfl, rfl⟩

/-- C9: the extracted payload is returned without structural validation —
an empty `data` string comes back as Success `""`, and an `inlineData`
object with no `data` field at all comes back as a Success carrying
`undefined`. -/
theorem editImage_no_payload_validation :
    editImageWithPrompt "img" "image/png" "edit"
        (fun _ => Except.ok respEmptyData) = EditOutcome.success (some "") ∧
    editImageWithPrompt "img" "image/png" "edit"
        (fun _ => Except.ok respAbsentData) = EditOutcome.success none :=
  ⟨rfl, rfl⟩

theorem partsOf_setRespMime (m : Option String) (r : GenerateContentResponse) :
    partsOf (setRespMime m r) = (partsOf r).map (setPartMime m) := by
  rcases r with ⟨cs⟩
  cases cs with
  | none => rfl
  | some l =>
    cases l with
    | nil => rfl
    | cons c rest =>
      rcases c with ⟨ct⟩
      cases ct with
      | none => rfl
      | some ctt =>
        rcases ctt with ⟨ps⟩
        cases ps with
        | none => rfl
        | some x => rfl

theorem firstInlineData_setPartMime (m : Option String) (ps : List ResponsePart) :
    firstInlineData (ps.map (setPartMime m)) = firstInlineData ps := by
  induction ps with
  | nil => rfl
  | cons q rest ih =>
    cases hq : q.inlineData with
    | none => simp [firstInlineData, setPartMime, hq, ih]
    | some i => simp [firstInlineData, setPartMime, hq]

/-- C10: rewriting every inline-data mimeType of the response leaves the
result of `editImageWithPrompt` unchanged (only the data string is
returned), and the reference caller labels every successful payload
`image/png` unconditionally. -/
theorem editImage_mime_discarded (b mt pr : String)
    (resp : GenerateContentResponse) (m : Option String) :
    editImageWithPrompt b mt pr (fun _ => Except.ok (setRespMime m resp)) =
      editImageWithPrompt b mt pr (fun _ => Except.ok resp) ∧
    ∀ s, editedImageUri s = "data:image/png;base64," ++ s := by
  refine ⟨?_, fun s => rfl⟩
  simp [editImageWithPrompt, settle, partsOf_setRespMime, firstInlineData_setPartMime]

theorem stepN_done (i : TransformInput) (n : Nat) (r : EditOutcome) :
    stepN i n (TaskState.done r) = TaskState.done r := by
  induction n with
  | zero => rfl
  | succ n ih => simp [stepN, stepTask, ih]

theorem stepN_idle_done (i : TransformInput) (n : Nat) (r : EditOutcome)
    (h : stepN i n TaskState.idle = TaskState.done r) : r = runTransform i := by
  match n with
  | 0 => cases h
  | 1 => cases h
  | n + 2 =>
    have hrun : stepN i (n + 2) TaskState.idle =
        TaskState.done (runTransform i) := by
      simp [stepN, stepTask, stepN_done, runTransform, editImageWithPrompt]
    rw [hrun] at h
    injection h with h
    exact h.symm

theorem runSchedule_split (i1 i2 : TransformInput) (sch : List Bool)
    (s : SystemState) :
    runSchedule i1 i2 sch s =
      ⟨stepN i1 (sch.count true) s.t1, stepN i2 (sch.count false) s.t2⟩ := by
  induction sch generalizing s with
  | nil => simp [runSchedule, stepN]
  | cons c sch ih =>
    cases c with
    | false => simp [runSchedule, ih, List.count_cons, stepN]
    | true => simp [runSchedule, ih, List.count_cons, stepN]

/-- C8: under any interleaving of two overlapping invocations, a task that
has settled carries exactly the result of its own input run in isolation;
the other invocation and the schedule are irrelevant (the tasks share no
mutable state). -/
theorem transform_noninterference (i1 i2 : TransformInput) (sch : List Bool)
    (r1 r2 : EditOutcome)
    (h1 : (runSchedule i1 i2 sch ⟨TaskState.idle, TaskState.idle⟩).t1 =
      TaskState.done r1)
    (h2 : (runSchedule i1 i2 sch ⟨TaskState.idle, TaskState.idle⟩).t2 =
      TaskState.done r2) :
    r1 = runTransform i1 ∧ r2 = runTransform i2 := by
  rw [runSchedule_split] at h1 h2
  exact ⟨stepN_idle_done i1 _ r1 h1, stepN_idle_done i2 _ r2 h2⟩

/-- Witness for C8: a concrete interleaving of a succeeding and a failing
invocation settles each with its own result. -/
theorem transform_noninterference_witness :
    EditOutcome.success (some "AAAA") =
      runTransform ⟨"a", "image/png", "p1", fun _ => Except.ok respTextThenImage⟩ ∧
    EditOutcome.failure "Failed to generate image: boom" =
      runTransform ⟨"b", "image/jpeg", "p2",
        fun _ => Except.error (Thrown.err "boom")⟩ :=
  transform_noninterference _ _ [true, false, true, false] _ _ rfl rfl
